import Mathlib

/-!
Verification of the scraping / download-queue core of an anime-downloader
desktop application.  The definitions below are a shallow embedding of the
main-process module (`src/unnamed/part_001`): strings are `String`/`List Char`,
the JavaScript regexes are run by a small backtracking matcher that implements
exactly the constructs those regexes use, DOM queries are abstracted as record
fields holding the queried attribute/text values, and the download queue is an
explicit state machine.
-/

namespace AnimeDl

/-! ## Basic character and string utilities -/

/-- Whitespace as matched by JavaScript `\s` / `String.trim` (the ASCII part,
which is all that the scraped pages and the worker protocol use). -/
def jsSpace (c : Char) : Bool :=
  c = ' ' || c = '\t' || c = '\n' || c = '\r' || c = '\x0b' || c = '\x0c'

/-- Test that `pat` is a prefix of `l`. -/
def listStarts : List Char → List Char → Bool
  | [], _ => true
  | _ :: _, [] => false
  | p :: ps, c :: cs => p = c && listStarts ps cs

/-- JavaScript `String.prototype.trim` on the underlying character list. -/
def trimChars (l : List Char) : List Char :=
  ((l.dropWhile jsSpace).reverse.dropWhile jsSpace).reverse

/-- JavaScript `s.trim()`. -/
def jsTrim (s : String) : String := ⟨trimChars s.data⟩

/-- JavaScript `a.startsWith(pat)`. -/
def startsWithStr (s pat : String) : Bool := listStarts pat.data s.data

/-- Occurrence test for the pattern `p :: ps` inside a character list
(`String.prototype.includes` with a non-empty needle). -/
def hasSubList (p : Char) (ps : List Char) : List Char → Bool
  | [] => false
  | c :: rest => (c = p && listStarts ps rest) || hasSubList p ps rest

/-- JavaScript `s.includes(pat)`. -/
def containsStr (s pat : String) : Bool :=
  match pat.data with
  | [] => true
  | p :: ps => hasSubList p ps s.data

/-- Fuel-indexed worker for the global literal replacement; the fuel only
bounds the recursion depth and is immaterial whenever it is at least the
input length (`replaceGo_fuel` below). -/
def replaceGo (p : Char) (ps rep : List Char) : Nat → List Char → List Char
  | _, [] => []
  | 0, l => l
  | fuel + 1, c :: rest =>
    if c = p && listStarts ps rest then
      rep ++ replaceGo p ps rep fuel (rest.drop ps.length)
    else
      c :: replaceGo p ps rep fuel rest

/-- Left-to-right, non-overlapping global replacement of the literal pattern
`p :: ps` by `rep`, as performed by `str.replace(/pat/g, rep)` for a literal
regex pattern. -/
def replaceAllList (p : Char) (ps rep l : List Char) : List Char :=
  replaceGo p ps rep l.length l

/-- JavaScript `s.replace(/pat/g, rep)` for a literal, non-empty pattern. -/
def replaceAllStr (pat rep s : String) : String :=
  match pat.data with
  | [] => s
  | p :: ps => ⟨replaceAllList p ps rep.data s.data⟩

/-- Digit-string value, the behaviour of `parseInt` on an all-digit string. -/
def digitsVal (l : List Char) : Nat :=
  l.foldl (fun acc c => acc * 10 + (c.toNat - 48)) 0

/-- Digits of a decimal literal `\d+\.?\d*` with the dot removed. -/
def decDigits (l : List Char) : List Char :=
  let ip := l.takeWhile Char.isDigit
  match l.dropWhile Char.isDigit with
  | '.' :: fr => ip ++ fr.takeWhile Char.isDigit
  | _ => ip

/-- Number of fractional digits of a decimal literal `\d+\.?\d*`. -/
def decScale (l : List Char) : Nat :=
  match l.dropWhile Char.isDigit with
  | '.' :: fr => (fr.takeWhile Char.isDigit).length
  | _ => 0

/-- Value of a decimal literal `\d+\.?\d*`, the behaviour of `parseFloat` on
such a string.  The value is kept as an exact rational; the IEEE rounding of
the JavaScript runtime is not modelled (all values in the claims are exactly
representable). -/
def parseDec (l : List Char) : ℚ :=
  (digitsVal (decDigits l) : ℚ) / (10 : ℚ) ^ decScale l

/-! ## A small backtracking regex matcher

The source classifies scraped text and worker output with JavaScript regexes.
Every quantifier in those regexes applies to a single-character class, so the
abstract syntax below (literals, character classes, greedy/lazy star, greedy
plus, optional character, capture groups, concatenation) covers them exactly.
The matcher enumerates candidate matches in the JavaScript engine's
backtracking priority order; the head of the enumeration is the match the
engine returns, and the surrounding search tries start positions left to
right, which is the engine's leftmost-match rule. -/

/-- Capture environment: group index paired with captured characters. -/
abbrev Caps := List (Nat × List Char)

/-- Regex abstract syntax (only the constructs used by the source). -/
inductive Rx where
  | str (s : List Char)
  | cls (p : Char → Bool)
  | cat (a b : Rx)
  | starG (p : Char → Bool)
  | starL (p : Char → Bool)
  | plusG (p : Char → Bool)
  | opt (c : Char)
  | grp (i : Nat) (r : Rx)

/-- Record a capture. -/
def setCap (i : Nat) (v : List Char) (cs : Caps) : Caps := (i, v) :: cs

/-- Look up a capture (empty if the group is absent). -/
def getCap (cs : Caps) (i : Nat) : List Char :=
  match cs.find? (fun x => x.1 == i) with
  | some x => x.2
  | none => []

/-- Enumerate the matches of `r` at the start of `l`, in backtracking priority
order, each as the capture environment plus the remaining input. -/
def mrun : Rx → Caps → List Char → List (Caps × List Char)
  | .str s, cs, l => if listStarts s l then [(cs, l.drop s.length)] else []
  | .cls _, _, [] => []
  | .cls p, cs, c :: rest => if p c then [(cs, rest)] else []
  | .cat a b, cs, l => (mrun a cs l).flatMap (fun pr => mrun b pr.1 pr.2)
  | .starG p, cs, l =>
    let k := (l.takeWhile p).length
    (List.range (k + 1)).map (fun i => (cs, l.drop (k - i)))
  | .starL p, cs, l =>
    let k := (l.takeWhile p).length
    (List.range (k + 1)).map (fun i => (cs, l.drop i))
  | .plusG p, cs, l =>
    let k := (l.takeWhile p).length
    (List.range k).map (fun i => (cs, l.drop (k - i)))
  | .opt _, cs, [] => [(cs, [])]
  | .opt c, cs, x :: rest =>
    if x = c then [(cs, rest), (cs, x :: rest)] else [(cs, x :: rest)]
  | .grp i r, cs, l =>
    (mrun r cs l).map (fun pr => (setCap i (l.take (l.length - pr.2.length)) pr.1, pr.2))

/-- First match of `r` trying successive start positions (`RegExp.exec`
without anchors: leftmost match wins). -/
def execRegexFrom (r : Rx) : List Char → Option Caps
  | [] => ((mrun r [] []).head?).map Prod.fst
  | c :: rest =>
    match (mrun r [] (c :: rest)).head? with
    | some pr => some pr.1
    | none => execRegexFrom r rest

/-- JavaScript `str.match(r)`: `some caps` iff the regex matches somewhere. -/
def execRegex (r : Rx) (l : List Char) : Option Caps := execRegexFrom r l

/-- Concatenation of a token list into one regex. -/
def rcats (rs : List Rx) : Rx := rs.foldr Rx.cat (.str [])

/-- Literal-string token. -/
def strR (s : String) : Rx := .str s.data

/-- JavaScript `.` (any character except line terminators). -/
def jsDot (c : Char) : Bool :=
  !(c = '\n' || c = '\r' || c = '\u2028' || c = '\u2029')

/-- JavaScript `\S`. -/
def jsNonSpace (c : Char) : Bool := !jsSpace c

/-- ASCII alphanumeric, the class `[a-zA-Z0-9]`. -/
def isAlnumChar (c : Char) : Bool := c.isAlphanum

/-! ## Scraping constants and HTML-entity decoding (source lines 117-128) -/

def SEARCH_BASE : String := "https://tw.xgcartoon.com"

def VIDEO_BASE : String := "https://tw.xgcartoon.com"

def IMAGE_BASE : String := "https://static-a.xgcartoon.com"

/-- Decoding of the five standard HTML entities, performed as five sequential
global replaces exactly as in `decodeHtmlEntities`. -/
def decodeHtmlEntities (s : String) : String :=
  replaceAllStr "&#39;" "'"
    (replaceAllStr "&quot;" "\""
      (replaceAllStr "&gt;" ">"
        (replaceAllStr "&lt;" "<"
          (replaceAllStr "&amp;" "&" s))))

/-! ## Page fetcher: redirect resolution (source lines 79-96) -/

/-- Protocol and host of an absolute http(s) URL, the `protocol`/`host` fields
of the `new URL(url)` object for the well-formed URLs the fetcher handles
(`none` models the constructor throwing on a non-http(s) string). -/
def parseOrigin (url : String) : Option (String × String) :=
  if startsWithStr url "https://" then
    some ("https:", ⟨(url.data.drop 8).takeWhile (fun c => !(c = '/' || c = '?' || c = '#'))⟩)
  else if startsWithStr url "http://" then
    some ("http:", ⟨(url.data.drop 7).takeWhile (fun c => !(c = '/' || c = '?' || c = '#'))⟩)
  else none

/-- Redirect-location resolution of `fetchUrl`: a location starting with `/`
gets `protocol//host` prefixed, a location not starting with `http` gets
`protocol//host/` prefixed, anything else is used verbatim. -/
def resolveRedirectUrl (url location : String) : Option String :=
  if startsWithStr location "/" then
    (parseOrigin url).map (fun ph => ph.1 ++ "//" ++ ph.2 ++ location)
  else if !startsWithStr location "http" then
    (parseOrigin url).map (fun ph => ph.1 ++ "//" ++ ph.2 ++ "/" ++ location)
  else
    some location

/-! ## Search extractor (source lines 130-218)

One search-result anchor (`a[href*="/detail/"]`) is abstracted as the values
the loop body reads off the DOM: the anchor's `href`, the `src` of a contained
`amp-img` (empty when absent, as `attr("src") || ""`), the `data-src`/`src` of
a contained `img` likewise, the trimmed-source texts of the title-candidate
selector matches, the anchor's full text, the texts of the tag-like selector
matches, and the text of the author-like selector matches.  The loop body
itself (URL normalisation, deduplication, extraction, acceptance) is embedded
verbatim below. -/

structure Anchor where
  href : String
  ampImgSrc : String
  imgDataSrc : String
  imgSrc : String
  selTexts : List String
  fullText : String
  tagTexts : List String
  authorText : String
deriving DecidableEq

structure SearchResult where
  title : String
  image : String
  tags : List String
  author : String
  detailUrl : String
deriving DecidableEq

/-- JavaScript `x || y` on strings (empty string is falsy). -/
def jsOr (x y : String) : String := if x = "" then y else x

/-- Normalisation of an anchor `href` to an absolute detail URL
(source lines 142-148). -/
def normalizeDetailUrl (href : String) : String :=
  if startsWithStr href "/" then SEARCH_BASE ++ href
  else if !startsWithStr href "http" then SEARCH_BASE ++ "/" ++ href
  else href

/-- Image extraction for one search anchor (source lines 153-172): `amp-img`
`src`, falling back to `img` `data-src` then `src`, protocol fix-up against
the image host, then entity decoding. -/
def extractImage (a : Anchor) : String :=
  let image := a.ampImgSrc
  let image := if image = "" then jsOr a.imgDataSrc a.imgSrc else image
  let image :=
    if image ≠ "" && !startsWithStr image "http" then
      if startsWithStr image "//" then "https:" ++ image
      else if startsWithStr image "/" then IMAGE_BASE ++ image
      else image
    else image
  decodeHtmlEntities image

/-- Splitting on a single character (`String.prototype.split("\n")`). -/
def splitOnChar (sep : Char) : List Char → List (List Char)
  | [] => [[]]
  | c :: rest =>
    if c = sep then [] :: splitOnChar sep rest
    else
      match splitOnChar sep rest with
      | [] => [[c]]
      | h :: t => (c :: h) :: t

/-- Title extraction for one search anchor (source lines 174-197): longest
trimmed text among the title-selector matches, else the longest line of the
anchor's full text that is longer than 2 characters. -/
def extractTitle (a : Anchor) : String :=
  let title := a.selTexts.foldl
    (fun best t => let text := jsTrim t; if best.length < text.length then text else best) ""
  if title = "" then
    let lines := ((splitOnChar '\n' (jsTrim a.fullText).data).map (fun l => jsTrim ⟨l⟩)).filter
      (fun l => 2 < l.length)
    lines.foldl (fun best line => if best.length < line.length then line else best) ""
  else title

/-- Tag extraction for one search anchor (source lines 199-204). -/
def extractTags (a : Anchor) : List String :=
  (a.tagTexts.map jsTrim).filter
    (fun t => t ≠ "" && t.length < 10 && !containsStr t "\n")

/-- Loop body of `searchAnime` for one candidate anchor, over the state of
seen URLs and accumulated results (source lines 138-215).  Deduplication by
normalised URL happens before any extraction; the result is pushed only when
the extracted title is non-empty and longer than 1 character. -/
def processAnchor (st : List String × List SearchResult) (a : Anchor) :
    List String × List SearchResult :=
  let detailUrl := normalizeDetailUrl a.href
  if detailUrl ∈ st.1 then st
  else
    let seen := detailUrl :: st.1
    let image := extractImage a
    let title := extractTitle a
    let tags := extractTags a
    let author := jsTrim a.authorText
    if title ≠ "" && 1 < title.length then
      (seen, st.2 ++ [⟨title, image, tags, author, detailUrl⟩])
    else
      (seen, st.2)

/-- The search extractor over the selected anchors in encounter order. -/
def searchAnime (anchors : List Anchor) : List SearchResult :=
  (anchors.foldl processAnchor ([], [])).2

/-- Acceptance condition of the search loop: the extracted title is non-empty
and longer than 1 character. -/
def acceptAnchorTitle (a : Anchor) : Bool :=
  extractTitle a ≠ "" && 1 < (extractTitle a).length

/-! ## Detail extractor: episodes and seasons (source lines 220-446) -/

structure Episode where
  number : Nat
  title : String
  href : String
deriving DecidableEq

structure Season where
  name : String
  episodes : List Episode
deriving DecidableEq

/-- Non-episode action words skipped by the episode walk (source lines
297-306). -/
def SKIP_WORDS : List String :=
  ["播放", "收藏", "分享", "舉報", "登入", "登錄", "注冊", "註冊"]

/-- Fuel-indexed worker for the whitespace-run collapse; the fuel is
immaterial whenever it is at least the input length. -/
def collapseGo : Nat → List Char → List Char
  | _, [] => []
  | 0, l => l
  | fuel + 1, c :: rest =>
    if jsSpace c then ' ' :: collapseGo fuel (rest.dropWhile jsSpace)
    else c :: collapseGo fuel rest

/-- Collapse every whitespace run to a single space:
`.replace(/\s+/g, " ")`. -/
def collapseRuns (l : List Char) : List Char := collapseGo l.length l

/-- The episode-title normalisation `.text().trim().replace(/\s+/g, " ")`. -/
def episodeTitleOf (text : String) : String := ⟨collapseRuns (jsTrim text).data⟩

/-- The regex `/chapter_id=([a-zA-Z0-9]+)/`. -/
def chapterRx : Rx := rcats [strR "chapter_id=", .grp 1 (.plusG isAlnumChar)]

/-- Chapter-id extraction from an episode `href`
(`epHref.match(/chapter_id=([a-zA-Z0-9]+)/)`). -/
def chapterIdOf (href : String) : Option String :=
  (execRegex chapterRx href.data).map (fun caps => ⟨getCap caps 1⟩)

/-- The shortcut-entry regex `/第\s*\d+\s*集\s*第\d+話/`. -/
def shortcutRx : Rx :=
  rcats [strR "第", .starG jsSpace, .plusG Char.isDigit, .starG jsSpace,
    strR "集", .starG jsSpace, strR "第", .plusG Char.isDigit, strR "話"]

/-- Test for a "latest episode" shortcut entry (source line 358). -/
def isShortcutTitle (t : String) : Bool := (execRegex shortcutRx t.data).isSome

/-- The ordinal regex `/第\s*(\d+)\s*[話话集]/`. -/
def numRx : Rx :=
  rcats [strR "第", .starG jsSpace, .grp 1 (.plusG Char.isDigit), .starG jsSpace,
    .cls (fun c => c = '話' || c = '话' || c = '集')]

/-- Episode-ordinal parsing from the title text (source lines 361-362),
defaulting to 0 when no ordinal is present. -/
def parseEpNumber (t : String) : Nat :=
  match execRegex numRx t.data with
  | some caps => digitsVal (getCap caps 1)
  | none => 0

/-- One `a.goto-chapter` link as its text and `href`. -/
structure EpAnchor where
  text : String
  href : String
deriving DecidableEq

/-- Processing of one goto-chapter link over the seen-chapter-id set and the
accumulated episode list.  This is the shared body of the primary strategy
(source lines 339-368) and of the fallback strategy (source lines 385-410),
which are verbatim duplicates of each other: text filters first, then
deduplication by `chapter_id` only when the href carries one, then the
shortcut-entry skip, then the push. -/
def processEpAnchor (st : List String × List Episode) (a : EpAnchor) :
    List String × List Episode :=
  let epTitle := episodeTitleOf a.text
  if epTitle = "" then st
  else if SKIP_WORDS.any (fun w => containsStr epTitle w) then st
  else if epTitle.length < 2 then st
  else
    match chapterIdOf a.href with
    | some cid =>
      if cid ∈ st.1 then st
      else if isShortcutTitle epTitle then (cid :: st.1, st.2)
      else (cid :: st.1, st.2 ++ [⟨parseEpNumber epTitle, epTitle, a.href⟩])
    | none =>
      if isShortcutTitle epTitle then st
      else (st.1, st.2 ++ [⟨parseEpNumber epTitle, epTitle, a.href⟩])

/-- The episode produced for an accepted goto-chapter link. -/
def episodeOfAnchor (a : EpAnchor) : Episode :=
  ⟨parseEpNumber (episodeTitleOf a.text), episodeTitleOf a.text, a.href⟩

/-- Comparison used by `episodes.sort((a, b) => a.number - b.number)`. -/
def epLE (a b : Episode) : Prop := a.number ≤ b.number

instance : DecidableRel epLE := fun a b => Nat.decLe a.number b.number

instance : IsTotal Episode epLE := ⟨fun a b => Nat.le_total a.number b.number⟩

instance : IsTrans Episode epLE := ⟨fun _ _ _ => Nat.le_trans⟩

/-- The stable ascending sort by episode number. -/
def sortEpisodes (l : List Episode) : List Episode := l.insertionSort epLE

/-- The zero-repair pass (source lines 428-432): a zero-numbered episode gets
the running sequence number; after each episode the sequence number becomes
that episode's (possibly repaired) number plus one. -/
def fixNumbering : Nat → List Episode → List Episode
  | _, [] => []
  | seqNum, ep :: rest =>
    let fixed := if ep.number = 0 then { ep with number := seqNum } else ep
    fixed :: fixNumbering (fixed.number + 1) rest

/-- Post-processing of one season's episode list (source lines 426-433):
sort ascending by number, then repair zero-numbered episodes. -/
def postProcessEpisodes (l : List Episode) : List Episode :=
  fixNumbering 1 (sortEpisodes l)

/-- Post-processing applied to every season of a detail page. -/
def postProcessSeasons (ss : List Season) : List Season :=
  ss.map (fun s => { s with episodes := postProcessEpisodes s.episodes })

/-! ## Progress protocol parser (source lines 514-588)

The worker's stdout is consumed in chunks; a carry-over buffer accumulates the
final unterminated fragment, completed fragments are trimmed, empty ones are
dropped, and the rest are classified by an ordered list of regex/marker rules
into progress and log events. -/

/-- Progress record sent to the renderer (the `ProgressData` payload without
the per-job constant `cartoonId`; the percentage is kept as an exact
rational). -/
structure ProgressData where
  episode : Nat
  percent : ℚ
  downloaded : Option String := none
  total : Option String := none
  speed : Option String := none
  eta : Option String := none
  status : Option String := none
  filename : Option String := none
deriving DecidableEq

/-- Event surface of the download subsystem's stream parser. -/
inductive WorkerEvent where
  | progress (d : ProgressData)
  | log (line : String)
deriving DecidableEq

/-- The progress-line regex
`/Ep\.(\d+).*?(\d+\.?\d*)%\s*\|\s*(\S+)\/(\S+)\s*\|\s*(\S+\/s)\s*\|.*?\|\s*ETA:\s*(\S+)/`. -/
def progressRx : Rx :=
  rcats [strR "Ep.", .grp 1 (.plusG Char.isDigit), .starL jsDot,
    .grp 2 (rcats [.plusG Char.isDigit, .opt '.', .starG Char.isDigit]), strR "%",
    .starG jsSpace, strR "|", .starG jsSpace,
    .grp 3 (.plusG jsNonSpace), strR "/", .grp 4 (.plusG jsNonSpace),
    .starG jsSpace, strR "|", .starG jsSpace,
    .grp 5 (rcats [.plusG jsNonSpace, strR "/s"]),
    .starG jsSpace, strR "|", .starL jsDot, strR "|", .starG jsSpace,
    strR "ETA:", .starG jsSpace, .grp 6 (.plusG jsNonSpace)]

/-- The episode-tag regex `/Ep\.(\d+)/`. -/
def epRx : Rx := rcats [strR "Ep.", .grp 1 (.plusG Char.isDigit)]

/-- The skip-index regex `/\[(\d+)\/(\d+)\]/`. -/
def skipIdxRx : Rx :=
  rcats [strR "[", .grp 1 (.plusG Char.isDigit), strR "/",
    .grp 2 (.plusG Char.isDigit), strR "]"]

/-- The skip-episode regex `/SKIP\s+(\d+)_/`. -/
def skipEpRx : Rx :=
  rcats [strR "SKIP", .plusG jsSpace, .grp 1 (.plusG Char.isDigit), strR "_"]

/-- Classification of one completed, trimmed, non-empty line
(source lines 526-587): progress line, done line, skip line, failure line,
bracketed log line, otherwise silently dropped. -/
def classifyChars (line : List Char) : Option WorkerEvent :=
  match execRegex progressRx line with
  | some caps =>
    some (.progress
      { episode := digitsVal (getCap caps 1)
        percent := parseDec (getCap caps 2)
        downloaded := some ⟨getCap caps 3⟩
        total := some ⟨getCap caps 4⟩
        speed := some ⟨getCap caps 5⟩
        eta := some ⟨getCap caps 6⟩ })
  | none =>
    if hasSubList 'D' "one in".data line then
      match execRegex epRx line with
      | some caps =>
        some (.progress { episode := digitsVal (getCap caps 1), percent := 100, status := some "done" })
      | none => none
    else if hasSubList 'S' "KIP".data line then
      let epNum :=
        match execRegex skipEpRx line with
        | some caps => digitsVal (getCap caps 1)
        | none =>
          match execRegex skipIdxRx line with
          | some caps => digitsVal (getCap caps 1)
          | none => 0
      if 0 < epNum then
        some (.progress { episode := epNum, percent := 100, status := some "skipped" })
      else none
    else if hasSubList 'F' "AILED".data line || hasSubList 'X' "XXXXXXXXX".data line then
      match execRegex epRx line with
      | some caps =>
        some (.progress { episode := digitsVal (getCap caps 1), percent := 0, status := some "failed" })
      | none => none
    else if hasSubList '[' "INFO]".data line || hasSubList '[' "COMPLETE]".data line ||
        hasSubList '[' "DOWNLOADING]".data line || hasSubList '[' "ERROR]".data line ||
        hasSubList '[' "WARNING]".data line then
      some (.log ⟨line⟩)
    else none

/-- Classification of one line given as a string. -/
def classifyLine (s : String) : Option WorkerEvent := classifyChars s.data

/-- Carriage-return or line-feed, the class `[\r\n]`. -/
def isSepChar (c : Char) : Bool := c = '\r' || c = '\n'

/-- JavaScript `buffer.split(/[\r\n]+/)`: fragments between maximal runs of
CR/LF characters, keeping a leading and a trailing empty fragment when the
buffer starts or ends with such a run. -/
def splitCR : List Char → List (List Char)
  | [] => [[]]
  | c :: rest =>
    if isSepChar c then
      match rest with
      | [] => [[], []]
      | r :: _ => if isSepChar r then splitCR rest else [] :: splitCR rest
    else
      match splitCR rest with
      | [] => [[c]]
      | h :: t => (c :: h) :: t

/-- The fragment retained as the new carry-over (`lines.pop() || ""`). -/
def lastFrag (parts : List (List Char)) : List Char := parts.getLastD []

/-- Per-line handling inside the chunk loop (source lines 522-524 plus the
classifier): trim, drop empty lines, classify the rest. -/
def processLines (ls : List (List Char)) : List WorkerEvent :=
  ls.filterMap (fun raw =>
    let line := trimChars raw
    if line = [] then none else classifyChars line)

/-- The chunked stdout loop (source lines 514-524): each chunk is appended to
the carry-over buffer, the whole buffer is split on CR/LF runs, the final
fragment becomes the new carry-over, and only the remaining (terminated)
fragments are processed.  Returns all emitted events plus the final buffer. -/
def feedChunks : List Char → List (List Char) → List WorkerEvent × List Char
  | buf, [] => ([], buf)
  | buf, c :: cs =>
    let parts := splitCR (buf ++ c)
    let rest := feedChunks (lastFrag parts) cs
    (processLines parts.dropLast ++ rest.1, rest.2)

/-! ## Download queue orchestrator (source lines 450-512, 595-610, 690-700) -/

/-- One submitted job: the `DownloadOptions` of a queue item (the owning
window handle is not modelled). -/
structure DownloadOptions where
  cartoonId : String
  episodes : List Episode
  outputDir : String
  detailUrl : String
deriving DecidableEq

/-- Minimum of a number list, `Math.min(...numbers)` (only used non-empty). -/
def listMin : List Nat → Nat
  | [] => 0
  | n :: rest => rest.foldl Nat.min n

/-- Maximum of a number list, `Math.max(...numbers)`. -/
def listMax : List Nat → Nat
  | [] => 0
  | n :: rest => rest.foldl Nat.max n

/-- Worker video-URL derivation from the first requested episode
(source lines 478-492). -/
def buildVideoUrl (cartoonId : String) (firstEp : Episode) : String :=
  if firstEp.href ≠ "" && containsStr firstEp.href "/video/" then
    if startsWithStr firstEp.href "http" then firstEp.href
    else VIDEO_BASE ++ firstEp.href
  else
    match chapterIdOf firstEp.href with
    | some cid => VIDEO_BASE ++ "/video/" ++ cartoonId ++ "/" ++ cid ++ ".html"
    | none => VIDEO_BASE ++ "/video/" ++ cartoonId ++ "/" ++ firstEp.href ++ ".html"

/-- Worker arguments after the script path (source lines 501-507): video URL,
output directory, and, for a non-empty episode list, the minimum and maximum
requested episode numbers. -/
def spawnArgs (o : DownloadOptions) (firstEp : Episode) : List String :=
  [buildVideoUrl o.cartoonId firstEp, o.outputDir] ++
    (if 0 < o.episodes.length then
      [toString (listMin (o.episodes.map Episode.number)),
       toString (listMax (o.episodes.map Episode.number))]
    else [])

/-- Promotion of the queue head: `episodes[0]` is dereferenced without a
guard, so an empty episode list makes the promotion throw (`none`) before any
worker is spawned; otherwise the spawn arguments are built. -/
def promoteResult (o : DownloadOptions) : Option (DownloadOptions × List String) :=
  match o.episodes with
  | [] => none
  | firstEp :: _ => some (o, spawnArgs o firstEp)

/-- Orchestrator state: the FIFO queue (the active job stays at its head
until its worker exits), the live-worker handle, the `queueProcessing` flag,
plus observation traces of spawned workers and delivered kill signals, and a
flag recording that `processQueue` threw. -/
structure QState where
  queue : List DownloadOptions
  active : Option DownloadOptions
  processing : Bool
  started : List (DownloadOptions × List String)
  killed : List DownloadOptions
  threw : Bool
deriving DecidableEq

def initialQState : QState := ⟨[], none, false, [], [], false⟩

/-- `processQueue` (source lines 466-512): an empty queue clears the
processing flag; otherwise the flag is set, the head is peeked (not removed)
and its worker is spawned — unless the unguarded `episodes[0]` dereference
throws first, which leaves the state otherwise untouched. -/
def processQueue (s : QState) : QState :=
  match s.queue with
  | [] => { s with processing := false }
  | o :: _ =>
    match promoteResult o with
    | none => { s with processing := true, threw := true }
    | some r => { s with processing := true, active := some o, started := s.started ++ [r] }

/-- `startDownload` (source lines 459-464): push the job, then run the queue
only when no processing is underway. -/
def startDownload (o : DownloadOptions) (s : QState) : QState :=
  let s' := { s with queue := s.queue ++ [o] }
  if s.processing then s' else processQueue s'

/-- The worker `close`/`error` handler (source lines 595-610): clear the
live-worker handle, shift the finished job off the queue, and process the
next entry. -/
def workerExit (s : QState) : QState :=
  processQueue { s with active := none, queue := s.queue.tail }

/-- The `cancel-download` handler (source lines 690-700): empty the whole
queue, then send SIGTERM to the live worker, if any, and clear the handle. -/
def cancelDownload (s : QState) : QState :=
  let s1 := { s with queue := [] }
  match s1.active with
  | some o => { s1 with active := none, killed := s1.killed ++ [o] }
  | none => s1

end AnimeDl

namespace AnimeDl

/-- Absence of the five entity patterns. -/
def noEntities (s : String) : Bool :=
  !(containsStr s "&amp;" || containsStr s "&lt;" || containsStr s "&gt;" ||
    containsStr s "&quot;" || containsStr s "&#39;")

/-- The search-result record the loop pushes for an accepted anchor. -/
def resultOfAnchor (a : Anchor) : SearchResult :=
  ⟨extractTitle a, extractImage a, extractTags a, jsTrim a.authorText, normalizeDetailUrl a.href⟩

/-- Re-attach a separator-free piece in front of a split. -/
def mergeHead (p : List Char) : List (List Char) → List (List Char)
  | [] => [p]
  | h :: t => (p ++ h) :: t

/-! ## Helper lemmas -/

lemma replaceGo_no_match (p : Char) (ps rep : List Char) :
    ∀ (fuel : Nat) (l : List Char), hasSubList p ps l = false →
    replaceGo p ps rep fuel l = l := by
  intro fuel
  induction fuel with
  | zero =>
    intro l _
    cases l <;> simp [replaceGo]
  | succ f ih =>
    intro l h
    cases l with
    | nil => simp [replaceGo]
    | cons c rest =>
      rw [hasSubList, Bool.or_eq_false_iff] at h
      rw [replaceGo, if_neg (by simp [h.1]), ih rest h.2]

/-- Non-empty strings containing no occurrence of the pattern are left alone
by the global replace. -/
lemma replaceAllStr_id (pat rep s : String) (h : containsStr s pat = false) :
    replaceAllStr pat rep s = s := by
  cases hp : pat.data with
  | nil =>
    simp only [containsStr, hp] at h
    exact absurd h (by simp)
  | cons p ps =>
    simp only [containsStr, hp] at h
    simp only [replaceAllStr, hp]
    rw [replaceAllList, replaceGo_no_match p ps rep.data s.data.length s.data h]

/-- A string with no entity occurrences is a fixed point of the decoder. -/
lemma decode_fixed (t : String) (h : noEntities t = true) : decodeHtmlEntities t = t := by
  rw [noEntities] at h
  simp only [Bool.not_eq_eq_eq_not, Bool.not_true, Bool.or_eq_false_iff] at h
  obtain ⟨⟨⟨⟨h1, h2⟩, h3⟩, h4⟩, h5⟩ := h
  rw [decodeHtmlEntities, replaceAllStr_id _ _ _ h1, replaceAllStr_id _ _ _ h2,
    replaceAllStr_id _ _ _ h3, replaceAllStr_id _ _ _ h4, replaceAllStr_id _ _ _ h5]

lemma processAnchor_seen (st : List String × List SearchResult) (a : Anchor)
    (h : normalizeDetailUrl a.href ∈ st.1) : processAnchor st a = st := by
  simp [processAnchor, h]

lemma processAnchor_push (st : List String × List SearchResult) (a : Anchor)
    (h : normalizeDetailUrl a.href ∉ st.1) (hacc : acceptAnchorTitle a = true) :
    processAnchor st a = (normalizeDetailUrl a.href :: st.1, st.2 ++ [resultOfAnchor a]) := by
  rw [acceptAnchorTitle] at hacc
  simp only [Bool.and_eq_true, decide_eq_true_eq] at hacc
  simp [processAnchor, h, hacc.1, hacc.2, resultOfAnchor]

lemma processAnchor_drop (st : List String × List SearchResult) (a : Anchor)
    (h : normalizeDetailUrl a.href ∉ st.1) (hacc : acceptAnchorTitle a = false) :
    processAnchor st a = (normalizeDetailUrl a.href :: st.1, st.2) := by
  rw [acceptAnchorTitle] at hacc
  have hacc' : ¬(extractTitle a ≠ "" ∧ 1 < (extractTitle a).length) := by
    intro hp
    rw [decide_eq_true hp.1, decide_eq_true hp.2] at hacc
    simp at hacc
  simp [processAnchor, h, hacc']

lemma searchLoop_seen (u : String) :
    ∀ (l : List Anchor) (st : List String × List SearchResult), u ∈ st.1 →
    ((l.foldl processAnchor st).2.countP (fun r => r.detailUrl == u)) =
      st.2.countP (fun r => r.detailUrl == u) := by
  intro l
  induction l with
  | nil => intro st _; simp
  | cons a l ih =>
    intro st hu
    rw [List.foldl_cons]
    by_cases hdup : normalizeDetailUrl a.href ∈ st.1
    · rw [processAnchor_seen st a hdup]
      exact ih st hu
    · have hne : (normalizeDetailUrl a.href == u) = false := by
        simp only [beq_eq_false_iff_ne, ne_eq]
        intro he
        exact hdup (he ▸ hu)
      by_cases hacc : acceptAnchorTitle a = true
      · rw [processAnchor_push st a hdup hacc,
          ih _ (List.mem_cons_of_mem _ hu)]
        simp [List.countP_append, List.countP_cons, resultOfAnchor, hne]
      · rw [processAnchor_drop st a hdup (Bool.eq_false_iff.mpr hacc),
          ih _ (List.mem_cons_of_mem _ hu)]

lemma searchLoop_count (u : String) :
    ∀ (l : List Anchor) (st : List String × List SearchResult), u ∉ st.1 →
    ((l.foldl processAnchor st).2.countP (fun r => r.detailUrl == u)) =
      st.2.countP (fun r => r.detailUrl == u) +
      (match l.filter (fun a => normalizeDetailUrl a.href == u) with
       | [] => 0
       | a₀ :: _ => if acceptAnchorTitle a₀ then 1 else 0) := by
  intro l
  induction l with
  | nil => intro st _; simp
  | cons a l ih =>
    intro st hu
    rw [List.foldl_cons]
    by_cases hau : normalizeDetailUrl a.href = u
    · have hfil : (a :: l).filter (fun x => normalizeDetailUrl x.href == u) =
          a :: l.filter (fun x => normalizeDetailUrl x.href == u) := by
        simp [List.filter_cons, hau]
      have hnotmem : normalizeDetailUrl a.href ∉ st.1 := by
        rw [hau]; exact hu
      by_cases hacc : acceptAnchorTitle a = true
      · rw [processAnchor_push st a hnotmem hacc]
        rw [searchLoop_seen u l _ (by rw [← hau]; exact List.mem_cons_self _ _)]
        simp [hfil, hacc, List.countP_append, List.countP_cons, resultOfAnchor, hau]
      · rw [processAnchor_drop st a hnotmem (Bool.eq_false_iff.mpr hacc)]
        rw [searchLoop_seen u l _ (by rw [← hau]; exact List.mem_cons_self _ _)]
        simp [hfil, hacc]
    · have hfil : (a :: l).filter (fun x => normalizeDetailUrl x.href == u) =
          l.filter (fun x => normalizeDetailUrl x.href == u) := by
        simp [List.filter_cons, hau]
      rw [hfil]
      by_cases hdup : normalizeDetailUrl a.href ∈ st.1
      · rw [processAnchor_seen st a hdup]
        exact ih st hu
      · have hmem' : u ∉ normalizeDetailUrl a.href :: st.1 := by
          intro hmem
          rcases List.mem_cons.mp hmem with h | h
          · exact hau h.symm
          · exact hu h
        by_cases hacc : acceptAnchorTitle a = true
        · rw [processAnchor_push st a hdup hacc, ih _ hmem']
          have hne : ((resultOfAnchor a).detailUrl == u) = false := by
            simp [resultOfAnchor, hau]
          simp [List.countP_append, List.countP_cons, hne]
        · rw [processAnchor_drop st a hdup (Bool.eq_false_iff.mpr hacc), ih _ hmem']

lemma fixNumbering_strict (l : List Episode) (seq : Nat)
    (hsorted : (l.map Episode.number).Pairwise (· ≤ ·))
    (hnd : ((l.map Episode.number).filter (fun n => n != 0)).Nodup)
    (hbound : ∀ e ∈ l, e.number ≠ 0 → seq + (l.map Episode.number).count 0 ≤ e.number) :
    ((fixNumbering seq l).map Episode.number).Pairwise (· < ·) ∧
    (∀ n ∈ (fixNumbering seq l).map Episode.number, seq ≤ n) := by
  induction l generalizing seq with
  | nil => simp [fixNumbering]
  | cons e rest ih =>
    rw [List.map_cons, List.pairwise_cons] at hsorted
    obtain ⟨hhead, htail⟩ := hsorted
    by_cases h0 : e.number = 0
    · have hcount : ((e :: rest).map Episode.number).count 0 =
          ((rest.map Episode.number).count 0) + 1 := by
        simp [h0, List.count_cons]
      have hnd' : ((rest.map Episode.number).filter (fun n => n != 0)).Nodup := by
        simpa [h0] using hnd
      have hbound' : ∀ x ∈ rest, x.number ≠ 0 →
          (seq + 1) + (rest.map Episode.number).count 0 ≤ x.number := by
        intro x hx hxne
        have := hbound x (List.mem_cons_of_mem _ hx) hxne
        omega
      obtain ⟨ihs, ihge⟩ := ih (seq + 1) htail hnd' hbound'
      have hfix : fixNumbering seq (e :: rest) =
          { e with number := seq } :: fixNumbering (seq + 1) rest := by
        simp [fixNumbering, h0]
      have hproj : ({ e with number := seq } : Episode).number = seq := rfl
      rw [hfix, List.map_cons, hproj, List.pairwise_cons]
      refine ⟨⟨fun n hn => ?_, ihs⟩, fun n hn => ?_⟩
      · have := ihge n hn
        omega
      · rcases List.mem_cons.mp hn with h | h
        · omega
        · have := ihge n h
          omega
    · have hrestnz : ∀ b ∈ rest.map Episode.number, b ≠ 0 := by
        intro b hb hb0
        have := hhead b hb
        omega
      have hcount0 : (rest.map Episode.number).count 0 = 0 := by
        rw [List.count_eq_zero]
        intro h
        exact hrestnz 0 h rfl
      have hcount0' : ((e :: rest).map Episode.number).count 0 = 0 := by
        simp [List.count_cons, h0, hcount0]
      have hfilter : (rest.map Episode.number).filter (fun n => n != 0) =
          rest.map Episode.number := by
        rw [List.filter_eq_self]
        intro b hb
        simpa using hrestnz b hb
      have hndk : (e.number :: rest.map Episode.number).Nodup := by
        have : ((e :: rest).map Episode.number).filter (fun n => n != 0) =
            e.number :: rest.map Episode.number := by
          simp [List.filter_cons, h0, hfilter]
        rw [this] at hnd
        exact hnd
      rw [List.nodup_cons] at hndk
      obtain ⟨hen, hndrest⟩ := hndk
      have hseqle : seq ≤ e.number := by
        have := hbound e (List.mem_cons_self e rest) h0
        omega
      have hbound' : ∀ x ∈ rest, x.number ≠ 0 →
          (e.number + 1) + (rest.map Episode.number).count 0 ≤ x.number := by
        intro x hx _
        have h1 : e.number ≤ x.number := hhead _ (List.mem_map_of_mem _ hx)
        have h2 : e.number ≠ x.number := by
          intro he
          exact hen (he ▸ List.mem_map_of_mem _ hx)
        omega
      have hnd'' : ((rest.map Episode.number).filter (fun n => n != 0)).Nodup := by
        rw [hfilter]; exact hndrest
      obtain ⟨ihs, ihge⟩ := ih (e.number + 1) htail hnd'' hbound'
      have hfix : fixNumbering seq (e :: rest) = e :: fixNumbering (e.number + 1) rest := by
        simp [fixNumbering, h0]
      rw [hfix, List.map_cons, List.pairwise_cons]
      refine ⟨⟨fun n hn => ?_, ihs⟩, fun n hn => ?_⟩
      · have := ihge n hn
        omega
      · rcases List.mem_cons.mp hn with h | h
        · omega
        · have := ihge n h
          omega

lemma splitCR_ne_nil : ∀ l : List Char, splitCR l ≠ [] := by
  intro l
  induction l with
  | nil => simp [splitCR]
  | cons c rest ih =>
    rw [splitCR.eq_def]
    by_cases hc : isSepChar c = true
    · simp only [hc, if_true]
      cases rest with
      | nil => simp
      | cons r rs =>
        by_cases hr : isSepChar r = true
        · simpa [hr] using ih
        · simp [hr]
    · simp only [hc, if_false]
      cases heq : splitCR rest with
      | nil => simp
      | cons h t => simp

lemma mergeHead_nil_of_ne (X : List (List Char)) (h : X ≠ []) : mergeHead [] X = X := by
  cases X with
  | nil => exact absurd rfl h
  | cons a t => simp [mergeHead]

lemma mergeHead_mergeHead (c : Char) (p : List Char) (X : List (List Char)) :
    mergeHead [c] (mergeHead p X) = mergeHead (c :: p) X := by
  cases X <;> simp [mergeHead]

lemma splitCR_cons_nonsep (c : Char) (l : List Char) (hc : isSepChar c = false) :
    splitCR (c :: l) = mergeHead [c] (splitCR l) := by
  rw [splitCR.eq_def]
  simp only [hc, if_false]
  cases heq : splitCR l with
  | nil => exact absurd heq (splitCR_ne_nil l)
  | cons h t => simp [mergeHead]

lemma splitCR_sepfree_append (p b : List Char) (hp : ∀ c ∈ p, isSepChar c = false) :
    splitCR (p ++ b) = mergeHead p (splitCR b) := by
  induction p with
  | nil => simpa using (mergeHead_nil_of_ne _ (splitCR_ne_nil b)).symm
  | cons c p' ih =>
    have hc : isSepChar c = false := hp c (List.mem_cons_self _ _)
    have hp' : ∀ x ∈ p', isSepChar x = false := fun x hx => hp x (List.mem_cons_of_mem _ hx)
    rw [List.cons_append, splitCR_cons_nonsep c (p' ++ b) hc, ih hp', mergeHead_mergeHead]

lemma splitCR_sepfree (p : List Char) (hp : ∀ c ∈ p, isSepChar c = false) :
    splitCR p = [p] := by
  have := splitCR_sepfree_append p [] hp
  simpa [splitCR, mergeHead] using this

lemma splitCR_cons_sep : ∀ (u : List Char) (s : Char), isSepChar s = true →
    splitCR (s :: u) = [] :: splitCR (u.dropWhile isSepChar) := by
  intro u
  induction u with
  | nil => intro s hs; simp [splitCR, hs]
  | cons r rs ih =>
    intro s hs
    by_cases hr : isSepChar r = true
    · rw [splitCR.eq_def]
      simp only [hs, if_true, hr]
      rw [ih r hr, List.dropWhile_cons]
      simp [hr]
    · rw [splitCR.eq_def]
      simp only [hs, if_true, hr]
      rw [List.dropWhile_cons]
      simp [hr]

lemma splitCR_frags_sepfree : ∀ (l : List Char) (f : List Char), f ∈ splitCR l →
    ∀ c ∈ f, isSepChar c = false := by
  intro l
  induction l with
  | nil =>
    intro f hf
    simp [splitCR] at hf
    simp [hf]
  | cons x rest ih =>
    intro f hf
    by_cases hx : isSepChar x = true
    · rw [splitCR.eq_def] at hf
      simp only [hx, if_true] at hf
      cases rest with
      | nil =>
        simp at hf
        simp [hf]
      | cons r rs =>
        dsimp only at hf
        by_cases hr : isSepChar r = true
        · rw [if_pos hr] at hf
          exact ih f hf
        · rw [if_neg hr] at hf
          rcases List.mem_cons.mp hf with h | h
          · simp [h]
          · exact ih f h
    · rw [splitCR_cons_nonsep x rest (Bool.eq_false_iff.mpr hx)] at hf
      cases heq : splitCR rest with
      | nil => exact absurd heq (splitCR_ne_nil rest)
      | cons h t =>
        rw [heq] at hf
        rcases List.mem_cons.mp hf with hc | hc
        · intro c hcf
          rw [hc] at hcf
          rcases List.mem_cons.mp hcf with h1 | h1
          · rw [h1]
            exact Bool.eq_false_iff.mpr hx
          · exact ih h (heq ▸ List.mem_cons_self _ _) c h1
        · exact ih f (heq ▸ List.mem_cons_of_mem _ hc)

lemma lastFrag_mem (L : List (List Char)) (h : L ≠ []) : lastFrag L ∈ L := by
  cases L with
  | nil => exact absurd rfl h
  | cons a t =>
    rw [lastFrag, List.getLastD_cons]
    exact List.getLastD_mem_cons t a

lemma dropWhile_head_false {p : Char → Bool} :
    ∀ (l : List Char) (c : Char) (cs : List Char), l.dropWhile p = c :: cs → p c = false := by
  intro l
  induction l with
  | nil => intro c cs h; simp [List.dropWhile] at h
  | cons x xs ih =>
    intro c cs h
    rw [List.dropWhile_cons] at h
    by_cases hx : p x = true
    · rw [if_pos (by simp [hx])] at h
      exact ih c cs h
    · rw [if_neg (by simp at hx; simp [hx])] at h
      cases h
      exact Bool.eq_false_iff.mpr hx

lemma processLines_cons_append (p : List Char) (L : List (List Char)) :
    processLines (p :: L) = processLines [p] ++ processLines L := by
  rw [← List.singleton_append, processLines, processLines, processLines,
    List.filterMap_append]

lemma processLines_nil_cons (L : List (List Char)) :
    processLines ([] :: L) = processLines L := by
  simp [processLines, trimChars]

lemma lastFrag_cons (x : List Char) (X : List (List Char)) (h : X ≠ []) :
    lastFrag (x :: X) = lastFrag X := by
  cases X with
  | nil => exact absurd rfl h
  | cons y t => simp [lastFrag, List.getLastD_cons]

lemma splitCR_dropWhile_reduce (b : List Char) :
    processLines ((splitCR (b.dropWhile isSepChar)).dropLast) =
      processLines ((splitCR b).dropLast) ∧
    lastFrag (splitCR (b.dropWhile isSepChar)) = lastFrag (splitCR b) := by
  cases b with
  | nil => simp [List.dropWhile]
  | cons x xs =>
    by_cases hx : isSepChar x = true
    · rw [List.dropWhile_cons, if_pos (by simp [hx]), splitCR_cons_sep xs x hx]
      constructor
      · rw [List.dropLast_cons_of_ne_nil (splitCR_ne_nil _), processLines_nil_cons]
      · rw [lastFrag_cons [] _ (splitCR_ne_nil _)]
    · rw [List.dropWhile_cons, if_neg (by simp [hx])]
      exact ⟨rfl, rfl⟩

lemma splitCR_core : ∀ (n : Nat) (a b : List Char), a.length ≤ n →
    (processLines ((splitCR (a ++ b)).dropLast) =
      processLines ((splitCR a).dropLast) ++
        processLines ((splitCR (lastFrag (splitCR a) ++ b)).dropLast)) ∧
    lastFrag (splitCR (a ++ b)) = lastFrag (splitCR (lastFrag (splitCR a) ++ b)) := by
  intro n
  induction n with
  | zero =>
    intro a b hlen
    have ha : a = [] := List.eq_nil_of_length_eq_zero (Nat.le_zero.mp hlen)
    subst ha
    constructor
    · simp [splitCR, lastFrag, processLines]
    · simp [splitCR, lastFrag]
  | succ n ih =>
    intro a b hlen
    cases hd : a.dropWhile (fun c => !isSepChar c) with
    | nil =>
      have hsf : ∀ c ∈ a, isSepChar c = false := by
        intro c hc
        have := List.dropWhile_eq_nil_iff.mp hd c hc
        simpa using this
      rw [splitCR_sepfree a hsf]
      constructor
      · simp [lastFrag, processLines]
      · simp [lastFrag]
    | cons s t =>
      have hsep : isSepChar s = true := by
        have := dropWhile_head_false a s t hd
        simpa using this
      have hsplit : a = a.takeWhile (fun c => !isSepChar c) ++ s :: t := by
        conv_lhs => rw [← List.takeWhile_append_dropWhile (p := fun c => !isSepChar c) (l := a)]
        rw [hd]
      have hp : ∀ c ∈ a.takeWhile (fun c => !isSepChar c), isSepChar c = false := by
        intro c hc
        have := List.mem_takeWhile_imp hc
        simpa using this
      have hsa : splitCR a =
          a.takeWhile (fun c => !isSepChar c) :: splitCR (t.dropWhile isSepChar) := by
        conv_lhs => rw [hsplit]
        rw [splitCR_sepfree_append _ (s :: t) hp, splitCR_cons_sep t s hsep]
        simp [mergeHead]
      have hsab : splitCR (a ++ b) =
          a.takeWhile (fun c => !isSepChar c) :: splitCR ((t ++ b).dropWhile isSepChar) := by
        conv_lhs => rw [hsplit]
        rw [List.append_assoc, List.cons_append,
          splitCR_sepfree_append _ (s :: (t ++ b)) hp, splitCR_cons_sep (t ++ b) s hsep]
        simp [mergeHead]
      have hlena : a.length = (a.takeWhile (fun c => !isSepChar c)).length + t.length + 1 := by
        conv_lhs => rw [hsplit]
        simp only [List.length_append, List.length_cons]
        omega
      have hlt : (t.dropWhile isSepChar).length ≤ n := by
        have h1 : (t.dropWhile isSepChar).length ≤ t.length :=
          (List.dropWhile_sublist _).length_le
        omega
      cases hemp : t.dropWhile isSepChar with
      | nil =>
        have hta : splitCR a = [a.takeWhile (fun c => !isSepChar c), []] := by
          rw [hsa, hemp]
          simp [splitCR]
        have hdw : (t ++ b).dropWhile isSepChar = b.dropWhile isSepChar := by
          rw [List.dropWhile_append, hemp]
          simp
        have hlf : lastFrag [a.takeWhile (fun c => !isSepChar c), []] = [] := by
          simp [lastFrag, List.getLastD_cons]
        constructor
        · rw [hsab, hdw, hta, hlf]
          rw [List.dropLast_cons_of_ne_nil (splitCR_ne_nil _), processLines_cons_append,
            (splitCR_dropWhile_reduce b).1]
          simp [List.dropLast]
        · rw [hsab, hdw, hta, hlf]
          rw [lastFrag_cons _ _ (splitCR_ne_nil _), (splitCR_dropWhile_reduce b).2]
          simp
      | cons u us =>
        have hdw : (t ++ b).dropWhile isSepChar = (t.dropWhile isSepChar) ++ b := by
          rw [List.dropWhile_append, hemp]
          simp
        obtain ⟨ih1, ih2⟩ := ih (t.dropWhile isSepChar) b hlt
        constructor
        · rw [hsab, hdw, hsa]
          rw [lastFrag_cons _ _ (splitCR_ne_nil _),
            List.dropLast_cons_of_ne_nil (splitCR_ne_nil _),
            List.dropLast_cons_of_ne_nil (splitCR_ne_nil _),
            processLines_cons_append _ ((splitCR (List.dropWhile isSepChar t ++ b)).dropLast),
            processLines_cons_append _ ((splitCR (List.dropWhile isSepChar t)).dropLast),
            ih1, List.append_assoc]
        · rw [hsab, hdw, hsa]
          rw [lastFrag_cons _ _ (splitCR_ne_nil _), lastFrag_cons _ _ (splitCR_ne_nil _)]
          exact ih2

lemma feedChunks_spec : ∀ (chunks : List (List Char)) (buf : List Char),
    (∀ c ∈ buf, isSepChar c = false) →
    feedChunks buf chunks =
      (processLines ((splitCR (buf ++ chunks.flatten)).dropLast),
       lastFrag (splitCR (buf ++ chunks.flatten))) := by
  intro chunks
  induction chunks with
  | nil =>
    intro buf hb
    rw [feedChunks]
    simp [splitCR_sepfree buf hb, lastFrag, processLines]
  | cons c cs ih =>
    intro buf hb
    rw [feedChunks]
    have hb' : ∀ x ∈ lastFrag (splitCR (buf ++ c)), isSepChar x = false :=
      fun x hx => splitCR_frags_sepfree (buf ++ c) _
        (lastFrag_mem _ (splitCR_ne_nil _)) x hx
    rw [ih (lastFrag (splitCR (buf ++ c))) hb']
    obtain ⟨h1, h2⟩ := splitCR_core (buf ++ c).length (buf ++ c) cs.flatten le_rfl
    rw [List.flatten_cons, ← List.append_assoc, h1, h2]

/-! ## The claims -/

/-- C1 (counterexample): on raw episode numbers [0, 0, 3, 0, 7] the post-processing step (sort ascending, then renumber zeros as previous number + 1) does not produce [1, 2, 3, 4, 7]: the third zero is renumbered to 3, colliding with the pre-existing 3. -/
theorem claim1_counterexample :
    (postProcessSeasons [⟨"第一季", [⟨0, "a", ""⟩, ⟨0, "b", ""⟩, ⟨3, "c", ""⟩, ⟨0, "d", ""⟩,
        ⟨7, "e", ""⟩]⟩]).map (fun s => s.episodes.map Episode.number) ≠ [[1, 2, 3, 4, 7]] := by
  decide

/-- C1 (amended): applied to a season whose episodes carry raw numbers [0, 0, 3, 0, 7] in encounter order, the detail-extractor post-processing yields exactly [1, 2, 3, 3, 7]. -/
theorem claim1_amended_thm :
    (postProcessSeasons [⟨"第一季", [⟨0, "a", ""⟩, ⟨0, "b", ""⟩, ⟨3, "c", ""⟩, ⟨0, "d", ""⟩,
        ⟨7, "e", ""⟩]⟩]).map (fun s => s.episodes.map Episode.number) = [[1, 2, 3, 3, 7]] := by
  decide

/-- C2 (counterexample): after post-processing a season with raw numbers [0, 0, 3, 0, 7], the episode numbers are not strictly ascending and not duplicate-free — 3 occurs twice. -/
theorem claim2_counterexample :
    ¬ ((((postProcessSeasons [⟨"第一季", [⟨0, "a", ""⟩, ⟨0, "b", ""⟩, ⟨3, "c", ""⟩, ⟨0, "d", ""⟩,
          ⟨7, "e", ""⟩]⟩]).flatMap (fun s => s.episodes.map Episode.number)).Pairwise (· < ·)) ∧
        ((postProcessSeasons [⟨"第一季", [⟨0, "a", ""⟩, ⟨0, "b", ""⟩, ⟨3, "c", ""⟩, ⟨0, "d", ""⟩,
          ⟨7, "e", ""⟩]⟩]).flatMap (fun s => s.episodes.map Episode.number)).Nodup) := by
  decide

/-- C2 (amended): episode numbers within a season are strictly ascending (hence pairwise distinct) after post-processing, provided the nonzero raw numbers are pairwise distinct and each exceeds the count of zero-numbered episodes in the season. -/
theorem claim2_amended_thm (eps : List Episode)
    (hnd : ((eps.map Episode.number).filter (fun n => n != 0)).Nodup)
    (hbound : ∀ e ∈ eps, e.number ≠ 0 → (eps.map Episode.number).count 0 < e.number) :
    ((postProcessEpisodes eps).map Episode.number).Pairwise (· < ·) := by
  have hperm : List.Perm (sortEpisodes eps) eps := List.perm_insertionSort epLE eps
  have hpermn : List.Perm ((sortEpisodes eps).map Episode.number) (eps.map Episode.number) :=
    hperm.map Episode.number
  have hsorted : ((sortEpisodes eps).map Episode.number).Pairwise (· ≤ ·) :=
    List.pairwise_map.mpr (List.sorted_insertionSort epLE eps)
  have hnd' : (((sortEpisodes eps).map Episode.number).filter (fun n => n != 0)).Nodup :=
    ((hpermn.filter _).nodup_iff).mpr hnd
  have hcount : ((sortEpisodes eps).map Episode.number).count 0 =
      (eps.map Episode.number).count 0 := hpermn.count_eq 0
  have hbound' : ∀ e ∈ sortEpisodes eps, e.number ≠ 0 →
      1 + ((sortEpisodes eps).map Episode.number).count 0 ≤ e.number := by
    intro e he hne
    have := hbound e (hperm.mem_iff.mp he) hne
    omega
  exact (fixNumbering_strict (sortEpisodes eps) 1 hsorted hnd' hbound').1

/-- C2 witness: the amended theorem applied to raw numbers [0, 0, 5, 9]. -/
theorem claim2_witness :
    ((([⟨0, "a", ""⟩, ⟨0, "b", ""⟩, ⟨5, "c", ""⟩, ⟨9, "d", ""⟩] :
        List Episode).map Episode.number).filter (fun n => n != 0)).Nodup ∧
    (∀ e ∈ ([⟨0, "a", ""⟩, ⟨0, "b", ""⟩, ⟨5, "c", ""⟩, ⟨9, "d", ""⟩] : List Episode),
      e.number ≠ 0 →
      (([⟨0, "a", ""⟩, ⟨0, "b", ""⟩, ⟨5, "c", ""⟩, ⟨9, "d", ""⟩] :
        List Episode).map Episode.number).count 0 < e.number) ∧
    ((postProcessEpisodes [⟨0, "a", ""⟩, ⟨0, "b", ""⟩, ⟨5, "c", ""⟩, ⟨9, "d", ""⟩]).map
      Episode.number).Pairwise (· < ·) :=
  ⟨by decide, by decide,
    claim2_amended_thm [⟨0, "a", ""⟩, ⟨0, "b", ""⟩, ⟨5, "c", ""⟩, ⟨9, "d", ""⟩]
      (by decide) (by decide)⟩

/-- C3 (counterexample): a search page with two anchors at the same normalized detail URL, of which only the second passes the title filter, produces zero SearchResults for that URL, not exactly one — the first anchor claims the URL in the seen-set before the title filter runs. -/
theorem claim3_counterexample :
    (searchAnime [⟨"/detail/x", "", "", "", ["a"], "", [], ""⟩,
                  ⟨"/detail/x", "", "", "", ["Good Anime"], "", [], ""⟩]).countP
        (fun r => r.detailUrl == "https://tw.xgcartoon.com/detail/x") ≠ 1 := by
  decide

/-- C3 (amended): for every search page in which N >= 1 anchors point at the same normalized absolute detail URL, the extractor produces exactly one SearchResult for that URL when the first such anchor passes the title-acceptance filter and none otherwise; in particular at most one in every case. -/
theorem claim3_amended_thm (anchors : List Anchor) (u : String) (a₀ : Anchor)
    (rest : List Anchor)
    (hf : anchors.filter (fun a => normalizeDetailUrl a.href == u) = a₀ :: rest) :
    (searchAnime anchors).countP (fun r => r.detailUrl == u) =
      if acceptAnchorTitle a₀ then 1 else 0 := by
  have h := searchLoop_count u anchors ([], []) (by simp)
  rw [hf] at h
  simpa [searchAnime] using h

/-- C3 witness: the amended theorem applied to a one-anchor page whose anchor passes the filter. -/
theorem claim3_witness :
    ([⟨"/detail/x", "", "", "", ["Good Anime"], "", [], ""⟩] : List Anchor).filter
        (fun a => normalizeDetailUrl a.href == "https://tw.xgcartoon.com/detail/x") =
      [⟨"/detail/x", "", "", "", ["Good Anime"], "", [], ""⟩] ∧
    (searchAnime [⟨"/detail/x", "", "", "", ["Good Anime"], "", [], ""⟩]).countP
        (fun r => r.detailUrl == "https://tw.xgcartoon.com/detail/x") =
      if acceptAnchorTitle ⟨"/detail/x", "", "", "", ["Good Anime"], "", [], ""⟩ then 1 else 0 :=
  ⟨by decide,
    claim3_amended_thm [⟨"/detail/x", "", "", "", ["Good Anime"], "", [], ""⟩]
      "https://tw.xgcartoon.com/detail/x"
      ⟨"/detail/x", "", "", "", ["Good Anime"], "", [], ""⟩ [] (by decide)⟩

/-- C4: submitting jobs A, B, C in order starts A immediately while B and C remain queued behind it in FIFO order; when A's worker exits, B is promoted and its worker spawned with no caller action; cancelling while A is active empties the queue, signals A's worker, and the subsequent exit of that worker starts nothing further. -/
theorem claim4_thm (A B C : DownloadOptions)
    (hA : A.episodes ≠ []) (hB : B.episodes ≠ []) (_hC : C.episodes ≠ []) :
    (startDownload A initialQState).active = some A ∧
    (startDownload A initialQState).processing = true ∧
    (startDownload A initialQState).started.map Prod.fst = [A] ∧
    (startDownload B (startDownload A initialQState)).queue = [A, B] ∧
    (startDownload B (startDownload A initialQState)).started.map Prod.fst = [A] ∧
    (startDownload C (startDownload B (startDownload A initialQState))).queue = [A, B, C] ∧
    (startDownload C (startDownload B (startDownload A initialQState))).active = some A ∧
    (startDownload C (startDownload B (startDownload A initialQState))).started.map Prod.fst
      = [A] ∧
    (workerExit (startDownload C (startDownload B (startDownload A initialQState)))).active
      = some B ∧
    (workerExit (startDownload C (startDownload B (startDownload A initialQState)))).queue
      = [B, C] ∧
    (workerExit (startDownload C (startDownload B (startDownload A initialQState)))).started.map
      Prod.fst = [A, B] ∧
    (cancelDownload (startDownload C (startDownload B (startDownload A initialQState)))).queue
      = [] ∧
    (cancelDownload (startDownload C (startDownload B (startDownload A initialQState)))).active
      = none ∧
    (cancelDownload (startDownload C (startDownload B (startDownload A initialQState)))).killed
      = [A] ∧
    (workerExit (cancelDownload (startDownload C (startDownload B
      (startDownload A initialQState))))).started =
      (cancelDownload (startDownload C (startDownload B (startDownload A initialQState)))).started ∧
    (workerExit (cancelDownload (startDownload C (startDownload B
      (startDownload A initialQState))))).processing = false ∧
    (workerExit (cancelDownload (startDownload C (startDownload B
      (startDownload A initialQState))))).queue = [] := by
  obtain ⟨eA, esA, hAe⟩ := List.exists_cons_of_ne_nil hA
  obtain ⟨eB, esB, hBe⟩ := List.exists_cons_of_ne_nil hB
  have s1 : startDownload A initialQState =
      ⟨[A], some A, true, [(A, spawnArgs A eA)], [], false⟩ := by
    simp [startDownload, initialQState, processQueue, promoteResult, hAe]
  have s2 : startDownload B ⟨[A], some A, true, [(A, spawnArgs A eA)], [], false⟩ =
      ⟨[A, B], some A, true, [(A, spawnArgs A eA)], [], false⟩ := by
    simp [startDownload]
  have s3 : startDownload C ⟨[A, B], some A, true, [(A, spawnArgs A eA)], [], false⟩ =
      ⟨[A, B, C], some A, true, [(A, spawnArgs A eA)], [], false⟩ := by
    simp [startDownload]
  have w1 : workerExit ⟨[A, B, C], some A, true, [(A, spawnArgs A eA)], [], false⟩ =
      ⟨[B, C], some B, true, [(A, spawnArgs A eA), (B, spawnArgs B eB)], [], false⟩ := by
    simp [workerExit, processQueue, promoteResult, hBe]
  have k1 : cancelDownload ⟨[A, B, C], some A, true, [(A, spawnArgs A eA)], [], false⟩ =
      ⟨[], none, true, [(A, spawnArgs A eA)], [A], false⟩ := by
    simp [cancelDownload]
  have w2 : workerExit ⟨[], none, true, [(A, spawnArgs A eA)], [A], false⟩ =
      ⟨[], none, false, [(A, spawnArgs A eA)], [A], false⟩ := by
    simp [workerExit, processQueue]
  rw [s1, s2, s3, w1, k1, w2]
  simp

/-- C4 witness: the queue lifecycle theorem applied to three concrete one-episode jobs. -/
theorem claim4_witness :
    (DownloadOptions.mk "cartoon-a" [Episode.mk 1 "第 1 話" "/video/a/1.html"] "/downloads" "https://tw.xgcartoon.com/detail/a").episodes ≠ [] ∧
    (DownloadOptions.mk "cartoon-b" [Episode.mk 2 "第 2 話" "/video/b/2.html"] "/downloads" "https://tw.xgcartoon.com/detail/b").episodes ≠ [] ∧
    (DownloadOptions.mk "cartoon-c" [Episode.mk 3 "第 3 話" "/video/c/3.html"] "/downloads" "https://tw.xgcartoon.com/detail/c").episodes ≠ [] ∧
    (    (startDownload (DownloadOptions.mk "cartoon-a" [Episode.mk 1 "第 1 話" "/video/a/1.html"] "/downloads" "https://tw.xgcartoon.com/detail/a") initialQState).active = some (DownloadOptions.mk "cartoon-a" [Episode.mk 1 "第 1 話" "/video/a/1.html"] "/downloads" "https://tw.xgcartoon.com/detail/a") ∧
    (startDownload (DownloadOptions.mk "cartoon-a" [Episode.mk 1 "第 1 話" "/video/a/1.html"] "/downloads" "https://tw.xgcartoon.com/detail/a") initialQState).processing = true ∧
    (startDownload (DownloadOptions.mk "cartoon-a" [Episode.mk 1 "第 1 話" "/video/a/1.html"] "/downloads" "https://tw.xgcartoon.com/detail/a") initialQState).started.map Prod.fst = [(DownloadOptions.mk "cartoon-a" [Episode.mk 1 "第 1 話" "/video/a/1.html"] "/downloads" "https://tw.xgcartoon.com/detail/a")] ∧
    (startDownload (DownloadOptions.mk "cartoon-b" [Episode.mk 2 "第 2 話" "/video/b/2.html"] "/downloads" "https://tw.xgcartoon.com/detail/b") (startDownload (DownloadOptions.mk "cartoon-a" [Episode.mk 1 "第 1 話" "/video/a/1.html"] "/downloads" "https://tw.xgcartoon.com/detail/a") initialQState)).queue = [(DownloadOptions.mk "cartoon-a" [Episode.mk 1 "第 1 話" "/video/a/1.html"] "/downloads" "https://tw.xgcartoon.com/detail/a"), (DownloadOptions.mk "cartoon-b" [Episode.mk 2 "第 2 話" "/video/b/2.html"] "/downloads" "https://tw.xgcartoon.com/detail/b")] ∧
    (startDownload (DownloadOptions.mk "cartoon-b" [Episode.mk 2 "第 2 話" "/video/b/2.html"] "/downloads" "https://tw.xgcartoon.com/detail/b") (startDownload (DownloadOptions.mk "cartoon-a" [Episode.mk 1 "第 1 話" "/video/a/1.html"] "/downloads" "https://tw.xgcartoon.com/detail/a") initialQState)).started.map Prod.fst = [(DownloadOptions.mk "cartoon-a" [Episode.mk 1 "第 1 話" "/video/a/1.html"] "/downloads" "https://tw.xgcartoon.com/detail/a")] ∧
    (startDownload (DownloadOptions.mk "cartoon-c" [Episode.mk 3 "第 3 話" "/video/c/3.html"] "/downloads" "https://tw.xgcartoon.com/detail/c") (startDownload (DownloadOptions.mk "cartoon-b" [Episode.mk 2 "第 2 話" "/video/b/2.html"] "/downloads" "https://tw.xgcartoon.com/detail/b") (startDownload (DownloadOptions.mk "cartoon-a" [Episode.mk 1 "第 1 話" "/video/a/1.html"] "/downloads" "https://tw.xgcartoon.com/detail/a") initialQState))).queue = [(DownloadOptions.mk "cartoon-a" [Episode.mk 1 "第 1 話" "/video/a/1.html"] "/downloads" "https://tw.xgcartoon.com/detail/a"), (DownloadOptions.mk "cartoon-b" [Episode.mk 2 "第 2 話" "/video/b/2.html"] "/downloads" "https://tw.xgcartoon.com/detail/b"), (DownloadOptions.mk "cartoon-c" [Episode.mk 3 "第 3 話" "/video/c/3.html"] "/downloads" "https://tw.xgcartoon.com/detail/c")] ∧
    (startDownload (DownloadOptions.mk "cartoon-c" [Episode.mk 3 "第 3 話" "/video/c/3.html"] "/downloads" "https://tw.xgcartoon.com/detail/c") (startDownload (DownloadOptions.mk "cartoon-b" [Episode.mk 2 "第 2 話" "/video/b/2.html"] "/downloads" "https://tw.xgcartoon.com/detail/b") (startDownload (DownloadOptions.mk "cartoon-a" [Episode.mk 1 "第 1 話" "/video/a/1.html"] "/downloads" "https://tw.xgcartoon.com/detail/a") initialQState))).active = some (DownloadOptions.mk "cartoon-a" [Episode.mk 1 "第 1 話" "/video/a/1.html"] "/downloads" "https://tw.xgcartoon.com/detail/a") ∧
    (startDownload (DownloadOptions.mk "cartoon-c" [Episode.mk 3 "第 3 話" "/video/c/3.html"] "/downloads" "https://tw.xgcartoon.com/detail/c") (startDownload (DownloadOptions.mk "cartoon-b" [Episode.mk 2 "第 2 話" "/video/b/2.html"] "/downloads" "https://tw.xgcartoon.com/detail/b") (startDownload (DownloadOptions.mk "cartoon-a" [Episode.mk 1 "第 1 話" "/video/a/1.html"] "/downloads" "https://tw.xgcartoon.com/detail/a") initialQState))).started.map Prod.fst
      = [(DownloadOptions.mk "cartoon-a" [Episode.mk 1 "第 1 話" "/video/a/1.html"] "/downloads" "https://tw.xgcartoon.com/detail/a")] ∧
    (workerExit (startDownload (DownloadOptions.mk "cartoon-c" [Episode.mk 3 "第 3 話" "/video/c/3.html"] "/downloads" "https://tw.xgcartoon.com/detail/c") (startDownload (DownloadOptions.mk "cartoon-b" [Episode.mk 2 "第 2 話" "/video/b/2.html"] "/downloads" "https://tw.xgcartoon.com/detail/b") (startDownload (DownloadOptions.mk "cartoon-a" [Episode.mk 1 "第 1 話" "/video/a/1.html"] "/downloads" "https://tw.xgcartoon.com/detail/a") initialQState)))).active
      = some (DownloadOptions.mk "cartoon-b" [Episode.mk 2 "第 2 話" "/video/b/2.html"] "/downloads" "https://tw.xgcartoon.com/detail/b") ∧
    (workerExit (startDownload (DownloadOptions.mk "cartoon-c" [Episode.mk 3 "第 3 話" "/video/c/3.html"] "/downloads" "https://tw.xgcartoon.com/detail/c") (startDownload (DownloadOptions.mk "cartoon-b" [Episode.mk 2 "第 2 話" "/video/b/2.html"] "/downloads" "https://tw.xgcartoon.com/detail/b") (startDownload (DownloadOptions.mk "cartoon-a" [Episode.mk 1 "第 1 話" "/video/a/1.html"] "/downloads" "https://tw.xgcartoon.com/detail/a") initialQState)))).queue
      = [(DownloadOptions.mk "cartoon-b" [Episode.mk 2 "第 2 話" "/video/b/2.html"] "/downloads" "https://tw.xgcartoon.com/detail/b"), (DownloadOptions.mk "cartoon-c" [Episode.mk 3 "第 3 話" "/video/c/3.html"] "/downloads" "https://tw.xgcartoon.com/detail/c")] ∧
    (workerExit (startDownload (DownloadOptions.mk "cartoon-c" [Episode.mk 3 "第 3 話" "/video/c/3.html"] "/downloads" "https://tw.xgcartoon.com/detail/c") (startDownload (DownloadOptions.mk "cartoon-b" [Episode.mk 2 "第 2 話" "/video/b/2.html"] "/downloads" "https://tw.xgcartoon.com/detail/b") (startDownload (DownloadOptions.mk "cartoon-a" [Episode.mk 1 "第 1 話" "/video/a/1.html"] "/downloads" "https://tw.xgcartoon.com/detail/a") initialQState)))).started.map
      Prod.fst = [(DownloadOptions.mk "cartoon-a" [Episode.mk 1 "第 1 話" "/video/a/1.html"] "/downloads" "https://tw.xgcartoon.com/detail/a"), (DownloadOptions.mk "cartoon-b" [Episode.mk 2 "第 2 話" "/video/b/2.html"] "/downloads" "https://tw.xgcartoon.com/detail/b")] ∧
    (cancelDownload (startDownload (DownloadOptions.mk "cartoon-c" [Episode.mk 3 "第 3 話" "/video/c/3.html"] "/downloads" "https://tw.xgcartoon.com/detail/c") (startDownload (DownloadOptions.mk "cartoon-b" [Episode.mk 2 "第 2 話" "/video/b/2.html"] "/downloads" "https://tw.xgcartoon.com/detail/b") (startDownload (DownloadOptions.mk "cartoon-a" [Episode.mk 1 "第 1 話" "/video/a/1.html"] "/downloads" "https://tw.xgcartoon.com/detail/a") initialQState)))).queue
      = [] ∧
    (cancelDownload (startDownload (DownloadOptions.mk "cartoon-c" [Episode.mk 3 "第 3 話" "/video/c/3.html"] "/downloads" "https://tw.xgcartoon.com/detail/c") (startDownload (DownloadOptions.mk "cartoon-b" [Episode.mk 2 "第 2 話" "/video/b/2.html"] "/downloads" "https://tw.xgcartoon.com/detail/b") (startDownload (DownloadOptions.mk "cartoon-a" [Episode.mk 1 "第 1 話" "/video/a/1.html"] "/downloads" "https://tw.xgcartoon.com/detail/a") initialQState)))).active
      = none ∧
    (cancelDownload (startDownload (DownloadOptions.mk "cartoon-c" [Episode.mk 3 "第 3 話" "/video/c/3.html"] "/downloads" "https://tw.xgcartoon.com/detail/c") (startDownload (DownloadOptions.mk "cartoon-b" [Episode.mk 2 "第 2 話" "/video/b/2.html"] "/downloads" "https://tw.xgcartoon.com/detail/b") (startDownload (DownloadOptions.mk "cartoon-a" [Episode.mk 1 "第 1 話" "/video/a/1.html"] "/downloads" "https://tw.xgcartoon.com/detail/a") initialQState)))).killed
      = [(DownloadOptions.mk "cartoon-a" [Episode.mk 1 "第 1 話" "/video/a/1.html"] "/downloads" "https://tw.xgcartoon.com/detail/a")] ∧
    (workerExit (cancelDownload (startDownload (DownloadOptions.mk "cartoon-c" [Episode.mk 3 "第 3 話" "/video/c/3.html"] "/downloads" "https://tw.xgcartoon.com/detail/c") (startDownload (DownloadOptions.mk "cartoon-b" [Episode.mk 2 "第 2 話" "/video/b/2.html"] "/downloads" "https://tw.xgcartoon.com/detail/b")
      (startDownload (DownloadOptions.mk "cartoon-a" [Episode.mk 1 "第 1 話" "/video/a/1.html"] "/downloads" "https://tw.xgcartoon.com/detail/a") initialQState))))).started =
      (cancelDownload (startDownload (DownloadOptions.mk "cartoon-c" [Episode.mk 3 "第 3 話" "/video/c/3.html"] "/downloads" "https://tw.xgcartoon.com/detail/c") (startDownload (DownloadOptions.mk "cartoon-b" [Episode.mk 2 "第 2 話" "/video/b/2.html"] "/downloads" "https://tw.xgcartoon.com/detail/b") (startDownload (DownloadOptions.mk "cartoon-a" [Episode.mk 1 "第 1 話" "/video/a/1.html"] "/downloads" "https://tw.xgcartoon.com/detail/a") initialQState)))).started ∧
    (workerExit (cancelDownload (startDownload (DownloadOptions.mk "cartoon-c" [Episode.mk 3 "第 3 話" "/video/c/3.html"] "/downloads" "https://tw.xgcartoon.com/detail/c") (startDownload (DownloadOptions.mk "cartoon-b" [Episode.mk 2 "第 2 話" "/video/b/2.html"] "/downloads" "https://tw.xgcartoon.com/detail/b")
      (startDownload (DownloadOptions.mk "cartoon-a" [Episode.mk 1 "第 1 話" "/video/a/1.html"] "/downloads" "https://tw.xgcartoon.com/detail/a") initialQState))))).processing = false ∧
    (workerExit (cancelDownload (startDownload (DownloadOptions.mk "cartoon-c" [Episode.mk 3 "第 3 話" "/video/c/3.html"] "/downloads" "https://tw.xgcartoon.com/detail/c") (startDownload (DownloadOptions.mk "cartoon-b" [Episode.mk 2 "第 2 話" "/video/b/2.html"] "/downloads" "https://tw.xgcartoon.com/detail/b")
      (startDownload (DownloadOptions.mk "cartoon-a" [Episode.mk 1 "第 1 話" "/video/a/1.html"] "/downloads" "https://tw.xgcartoon.com/detail/a") initialQState))))).queue = []) :=
  ⟨by decide, by decide, by decide,
    claim4_thm (DownloadOptions.mk "cartoon-a" [Episode.mk 1 "第 1 話" "/video/a/1.html"] "/downloads" "https://tw.xgcartoon.com/detail/a") (DownloadOptions.mk "cartoon-b" [Episode.mk 2 "第 2 話" "/video/b/2.html"] "/downloads" "https://tw.xgcartoon.com/detail/b") (DownloadOptions.mk "cartoon-c" [Episode.mk 3 "第 3 話" "/video/c/3.html"] "/downloads" "https://tw.xgcartoon.com/detail/c") (by decide) (by decide) (by decide)⟩

/-- C5 (counterexample): a protocol-relative Location //cdn.example.org/p is not resolved to that host under the original scheme; the fetcher prefixes the original origin instead. -/
theorem claim5_counterexample :
    resolveRedirectUrl "https://example.com/a" "//cdn.example.org/p" ≠
      some "https://cdn.example.org/p" ∧
    resolveRedirectUrl "https://example.com/a" "//cdn.example.org/p" =
      some "https://example.com//cdn.example.org/p" := by
  exact ⟨by decide, by decide⟩

/-- C5 (amended): a Location starting with the slash character — including protocol-relative //host/path — is resolved by prefixing the original URL's protocol and host; a bare relative Location (no leading slash, not starting with http) is resolved as origin + slash + location. -/
theorem claim5_amended_thm (url location proto host : String)
    (h : parseOrigin url = some (proto, host)) :
    (startsWithStr location "/" = true →
      resolveRedirectUrl url location = some (proto ++ "//" ++ host ++ location)) ∧
    (startsWithStr location "/" = false → startsWithStr location "http" = false →
      resolveRedirectUrl url location = some (proto ++ "//" ++ host ++ "/" ++ location)) := by
  constructor
  · intro hs
    simp [resolveRedirectUrl, hs, h]
  · intro hs hh
    simp [resolveRedirectUrl, hs, hh, h]

/-- C5 witness: the amended theorem applied to a root-relative redirect from a concrete https URL. -/
theorem claim5_witness :
    parseOrigin "https://example.com/a" = some ("https:", "example.com") ∧
    startsWithStr "/p" "/" = true ∧
    resolveRedirectUrl "https://example.com/a" "/p" =
      some ("https:" ++ "//" ++ "example.com" ++ "/p") :=
  ⟨by decide, by decide,
    (claim5_amended_thm "https://example.com/a" "/p" "https:" "example.com" (by decide)).1
      (by decide)⟩

/-- C6 (counterexample): the string &amp;amp; contains &amp;, one decoding application yields &amp;, and a second application changes the result again (to a lone ampersand), so decoding is not idempotent on every string containing &amp;. -/
theorem claim6_counterexample :
    containsStr "&amp;amp;" "&amp;" = true ∧
    decodeHtmlEntities (decodeHtmlEntities "&amp;amp;") ≠ decodeHtmlEntities "&amp;amp;" := by
  exact ⟨by decide, by decide⟩

/-- C6 (amended): decoding is idempotent exactly when it creates no new entity occurrence: if one application leaves a string free of the five entity patterns, a second application is the identity on it. -/
theorem claim6_amended_thm (s : String) (h : noEntities (decodeHtmlEntities s) = true) :
    decodeHtmlEntities (decodeHtmlEntities s) = decodeHtmlEntities s :=
  decode_fixed (decodeHtmlEntities s) h

/-- C6 witness: the amended theorem applied to an image URL carrying one &amp; entity. -/
theorem claim6_witness :
    noEntities (decodeHtmlEntities "https://img.example.com/i.jpg?a=1&amp;b=2") = true ∧
    decodeHtmlEntities "https://img.example.com/i.jpg?a=1&amp;b=2" =
      "https://img.example.com/i.jpg?a=1&b=2" ∧
    decodeHtmlEntities (decodeHtmlEntities "https://img.example.com/i.jpg?a=1&amp;b=2") =
      decodeHtmlEntities "https://img.example.com/i.jpg?a=1&amp;b=2" :=
  ⟨by decide, by decide, claim6_amended_thm "https://img.example.com/i.jpg?a=1&amp;b=2" (by decide)⟩

/-- C7: the progress-line classifier, applied to the exact worker line, emits a Progress event with episode 5, percent 42.5, downloaded 50MB, total 120MB, speed 3.1MB/s, eta 00:14, and no status tag. -/
theorem claim7_progress_line :
    classifyLine "Ep.005 [████░░] 42.5% | 50MB/120MB | 3.1MB/s | 00:10 | ETA: 00:14" =
      some (.progress { episode := 5, percent := 85 / 2, downloaded := some "50MB",
                        total := some "120MB", speed := some "3.1MB/s", eta := some "00:14" }) := by
  have h : execRegex progressRx
      ("Ep.005 [████░░] 42.5% | 50MB/120MB | 3.1MB/s | 00:10 | ETA: 00:14").data =
      some [(6, "00:14".data), (5, "3.1MB/s".data), (4, "120MB".data), (3, "50MB".data),
            (2, "42.5".data), (1, "005".data)] := by decide
  have hp : parseDec (getCap [(6, "00:14".data), (5, "3.1MB/s".data), (4, "120MB".data),
      (3, "50MB".data), (2, "42.5".data), (1, "005".data)] 2) = 85 / 2 := by
    have h1 : digitsVal (decDigits (getCap [(6, "00:14".data), (5, "3.1MB/s".data),
        (4, "120MB".data), (3, "50MB".data), (2, "42.5".data), (1, "005".data)] 2)) = 425 := by decide
    have h2 : decScale (getCap [(6, "00:14".data), (5, "3.1MB/s".data), (4, "120MB".data),
        (3, "50MB".data), (2, "42.5".data), (1, "005".data)] 2) = 1 := by decide
    rw [parseDec, h1, h2]
    norm_num
  simp only [classifyLine, classifyChars, h, hp, Option.some.injEq, WorkerEvent.progress.injEq,
    ProgressData.mk.injEq]
  refine ⟨?_, ?_, ?_, ?_, ?_, ?_, ?_, ?_⟩ <;> trivial

/-- C8: for every sequence of stdout chunks, the chunked parser emits exactly the events of the terminated fragments of the concatenated stream (fragments cut by maximal runs of CR/LF), and the carry-over is the final unterminated fragment — no partial-line event is ever produced, and a fragment is only emitted once a later chunk terminates it. -/
theorem claim8_thm (chunks : List (List Char)) :
    feedChunks [] chunks =
      (processLines ((splitCR chunks.flatten).dropLast),
       lastFrag (splitCR chunks.flatten)) := by
  simpa using feedChunks_spec chunks [] (by simp)

/-- C9: promoting a queue head whose episodes list is empty throws on the unguarded episodes[0] dereference before any worker is spawned, leaving the state otherwise untouched; for every job with at least one episode the spawn always happens, so the error branch is unreachable. -/
theorem claim9_thm (s : QState) (o : DownloadOptions) (rest : List DownloadOptions)
    (hq : s.queue = o :: rest) :
    (o.episodes = [] →
      processQueue s = { s with processing := true, threw := true }) ∧
    (o.episodes ≠ [] →
      ∃ firstEp others, o.episodes = firstEp :: others ∧
        processQueue s =
          { s with
              processing := true
              active := some o
              started := s.started ++ [(o, spawnArgs o firstEp)] }) := by
  constructor
  · intro he
    simp [processQueue, hq, promoteResult, he]
  · intro he
    obtain ⟨e, es, hee⟩ := List.exists_cons_of_ne_nil he
    exact ⟨e, es, hee, by simp [processQueue, hq, promoteResult, hee]⟩

/-- C9 witness: the promotion theorem applied to a queue holding one job with an empty episodes list. -/
theorem claim9_witness :
    ((⟨"cid", [], "/out", "u"⟩ : DownloadOptions).episodes = [] →
      processQueue ⟨[⟨"cid", [], "/out", "u"⟩], none, false, [], [], false⟩ =
        ⟨[⟨"cid", [], "/out", "u"⟩], none, true, [], [], true⟩) ∧
    ((⟨"cid", [], "/out", "u"⟩ : DownloadOptions).episodes ≠ [] →
      ∃ firstEp others,
        (⟨"cid", [], "/out", "u"⟩ : DownloadOptions).episodes = firstEp :: others ∧
        processQueue ⟨[⟨"cid", [], "/out", "u"⟩], none, false, [], [], false⟩ =
          ⟨[⟨"cid", [], "/out", "u"⟩], some ⟨"cid", [], "/out", "u"⟩, true,
            [(⟨"cid", [], "/out", "u"⟩, spawnArgs ⟨"cid", [], "/out", "u"⟩ firstEp)], [],
            false⟩) :=
  claim9_thm ⟨[⟨"cid", [], "/out", "u"⟩], none, false, [], [], false⟩ ⟨"cid", [], "/out", "u"⟩
    [] rfl

/-- C10: deduplication of episode links applies only to hrefs carrying a chapter_id token: an accepted goto-chapter anchor whose href lacks one is appended unconditionally, so processing the same chapter_id-free anchor twice yields two identical episode entries (this is the shared loop body of the primary and fallback strategies). -/
theorem claim10_thm (seen : List String) (eps : List Episode) (a : EpAnchor)
    (hcid : chapterIdOf a.href = none)
    (h1 : episodeTitleOf a.text ≠ "")
    (h2 : SKIP_WORDS.any (fun w => containsStr (episodeTitleOf a.text) w) = false)
    (h3 : ¬ (episodeTitleOf a.text).length < 2)
    (h4 : isShortcutTitle (episodeTitleOf a.text) = false) :
    processEpAnchor (processEpAnchor (seen, eps) a) a =
      (seen, eps ++ [episodeOfAnchor a, episodeOfAnchor a]) := by
  simp [processEpAnchor, hcid, h1, h2, h3, h4, episodeOfAnchor]

/-- C10 witness: the theorem applied to a concrete chapter_id-free episode anchor. -/
theorem claim10_witness :
    chapterIdOf (EpAnchor.mk "第 3 話" "/video/abc/ep3.html").href = none ∧
    episodeTitleOf (EpAnchor.mk "第 3 話" "/video/abc/ep3.html").text ≠ "" ∧
    SKIP_WORDS.any (fun w =>
      containsStr (episodeTitleOf (EpAnchor.mk "第 3 話" "/video/abc/ep3.html").text) w) = false ∧
    ¬ (episodeTitleOf (EpAnchor.mk "第 3 話" "/video/abc/ep3.html").text).length < 2 ∧
    isShortcutTitle (episodeTitleOf (EpAnchor.mk "第 3 話" "/video/abc/ep3.html").text) = false ∧
    processEpAnchor (processEpAnchor ([], []) (EpAnchor.mk "第 3 話" "/video/abc/ep3.html"))
        (EpAnchor.mk "第 3 話" "/video/abc/ep3.html") =
      ([], [] ++ [episodeOfAnchor (EpAnchor.mk "第 3 話" "/video/abc/ep3.html"),
                  episodeOfAnchor (EpAnchor.mk "第 3 話" "/video/abc/ep3.html")]) :=
  ⟨by decide, by decide, by decide, by decide, by decide,
    claim10_thm [] [] (EpAnchor.mk "第 3 話" "/video/abc/ep3.html")
      (by decide) (by decide) (by decide) (by decide) (by decide)⟩

end AnimeDl
